import Mathlib

/-!
Verification of the sidebar menu resolver of `client/my-sites/sidebar/manage-menu.jsx`
and of the support-session header accessor of `server/support-session/index.js`.

The menu resolver is embedded shallowly: the component props that the
resolver reads (`connect` maps them from the Redux state) become an explicit
`Context` record; each instance method of `ManageMenu` becomes a function of
that context.  JavaScript truthiness on the optional strings (`siteAdminUrl`,
`siteSlug`) is made explicit: `none` and the empty string are falsy.
-/

/-- A menu item definition, as the object literals of `getDefaultMenuItems`,
`getPluginItem`, `getImportItem` and `getCustomMenuItems` build it.  Fields
the resolver never reads for visibility or link resolution (button links,
match paths, decorations) are not modelled.  `label` is optional because a
custom content type may lack both `labels.menu_name` and `label`. -/
structure MenuItemDefinition where
  name : String
  label : Option String
  capability : Option String
  itemConfig : Option String
  queryable : Bool
  link : String
  wpAdminLink : String
  showOnAllMySites : Bool
deriving DecidableEq

/-- The resolved output of `renderMenuItem` for a visible item: the data the
`SidebarItem` row receives. -/
structure ResolvedMenuItem where
  name : String
  label : Option String
  link : String
  icon : String
  preload : String
deriving DecidableEq

/-- The connected props the resolver reads, as one immutable context.
`siteId` records whether a single site is selected (the JS number is only
ever tested for truthiness).  `canCurrentUser` and `isEnabledFlag` are the
capability-lookup and feature-flag collaborators. -/
structure Context where
  siteId : Bool
  canCurrentUser : String → Bool
  isEnabledFlag : String → Bool
  siteAdminUrl : Option String
  siteSlug : Option String
  isJetpack : Bool
  isSingleUser : Bool
  allSingleSites : Bool
  isAtomicSite : Bool

/-- JavaScript truthiness of an optional string: `undefined`/`null` and the
empty string are falsy, every other string truthy. -/
def jsTruthy : Option String → Bool
  | none => false
  | some s => !s.isEmpty

/-- Join a list of strings with a slash between consecutive entries, as the
JavaScript `Array.prototype.join('/')`. -/
def joinSlash : List String → String
  | [] => ""
  | [s] => s
  | s :: rest => s ++ "/" ++ joinSlash rest

/-- Lodash `compact(xs).join('/')`: drop the falsy entries, join the rest
with a slash. -/
def compactJoin (xs : List (Option String)) : String :=
  joinSlash ((xs.filterMap id).filter (fun s => !s.isEmpty))

/-- Modelled from the spec: the capability-lookup collaborator
`canCurrentUser` (the selector `state/selectors/can-current-user`, not under
`src/`) applied to the `capability` field, which `getCustomMenuItems` may
leave absent.  The spec states that an absent capability map entry is
treated as capability denied (fails closed) when a site is in scope, so the
check on an absent capability yields `false`; on a present capability it is
the collaborator verbatim. -/
def capCheck (ctx : Context) : Option String → Bool
  | none => false
  | some c => ctx.canCurrentUser c

/-- The `isEnabled` local of `renderMenuItem`:
`! menuItem.config || config.isEnabled( menuItem.config )`. -/
def isEnabledFor (ctx : Context) (item : MenuItemDefinition) : Bool :=
  match item.itemConfig with
  | none => true
  | some c => ctx.isEnabledFlag c

/-- The condition under which `renderMenuItem` links to the external admin:
`( ! isEnabled || ! menuItem.queryable ) && siteAdminUrl`. -/
def externalLinkCond (ctx : Context) (item : MenuItemDefinition) : Bool :=
  (!isEnabledFor ctx item || !item.queryable) && jsTruthy ctx.siteAdminUrl

/-- The icon switch of `renderMenuItem`. -/
def iconFor (name : String) : String :=
  if name == "post" then "posts"
  else if name == "page" then "pages"
  else if name == "import" then "cloud-upload"
  else if name == "jetpack-portfolio" then "folder"
  else if name == "jetpack-testimonial" then "quote"
  else if name == "media" then "image"
  else if name == "comments" then "chat"
  else if name == "plugins" then "plugins"
  else "custom-post-type"

/-- The preload hint of `renderMenuItem`: posts and pages together, comments
alone, everything else a shared custom hint. -/
def preloadFor (name : String) : String :=
  if name == "post" || name == "page" then "posts-pages"
  else if name == "comments" then "comments"
  else "posts-custom"

/-- The method `getMyParameter`: the `/my` suffix decision for the posts
link.  With a site selected the suffix is empty for a single-user or
Jetpack site and `/my` otherwise; with no site selected it is empty when
all sites are single-user and `/my` otherwise. -/
def getMyParameter (ctx : Context) : String :=
  if ctx.siteId then
    if ctx.isSingleUser || ctx.isJetpack then "" else "/my"
  else
    if ctx.allSingleSites then "" else "/my"

/-- The method `renderMenuItem`: visibility gating (capability when a site
is selected; the attachment rule; feature flag and `showOnAllMySites` when
no site is selected) followed by link resolution (external admin fallback
when the item is flag-disabled or not queryable and an admin URL is
available, internal path joined with the site slug otherwise). -/
def renderMenuItem (ctx : Context) (item : MenuItemDefinition) : Option ResolvedMenuItem :=
  if ctx.siteId && !capCheck ctx item.capability then none
  else if item.name == "attachment" then none
  else if !ctx.siteId && (!isEnabledFor ctx item || !item.showOnAllMySites) then none
  else
    some { name := item.name, label := item.label,
           link :=
             if externalLinkCond ctx item then
               ctx.siteAdminUrl.getD "" ++ item.wpAdminLink
             else
               compactJoin [some item.link, ctx.siteSlug],
           icon := iconFor item.name, preload := preloadFor item.name }

/-- The method `getDefaultMenuItems`: the four built-ins (pages, posts,
media, comments) in source order.  Labels are the literal strings handed to
the (out of scope) `translate` collaborator. -/
def getDefaultMenuItems (ctx : Context) : List MenuItemDefinition :=
  [ { name := "page", label := some "Site Pages", capability := some "edit_pages",
      itemConfig := some "manage/pages", queryable := true, link := "/pages",
      wpAdminLink := "edit.php?post_type=page", showOnAllMySites := true },
    { name := "post", label := some "Blog Posts", capability := some "edit_posts",
      itemConfig := some "manage/posts", queryable := true,
      link := "/posts" ++ getMyParameter ctx,
      wpAdminLink := "edit.php", showOnAllMySites := true },
    { name := "media", label := some "Media", capability := some "upload_files",
      itemConfig := none, queryable := true, link := "/media",
      wpAdminLink := "upload.php", showOnAllMySites := false },
    { name := "comments", label := some "Comments", capability := some "edit_posts",
      itemConfig := some "manage/comments", queryable := true, link := "/comments",
      wpAdminLink := "edit-comments.php", showOnAllMySites := false } ]

/-- The method `getPluginItem`. -/
def getPluginItem (ctx : Context) : MenuItemDefinition :=
  { name := "plugins", label := some "Plugins", capability := some "manage_options",
    itemConfig := some "manage/plugins", queryable := !ctx.isAtomicSite,
    link := "/plugins", wpAdminLink := "plugin-install.php?calypsoify=1",
    showOnAllMySites := true }

/-- The method `getImportItem`. -/
def getImportItem (ctx : Context) : MenuItemDefinition :=
  { name := "import", label := some "Import", capability := some "manage_options",
    itemConfig := some "manage/import-in-sidebar", queryable := !ctx.isJetpack,
    link := "/settings/import", wpAdminLink := "import.php",
    showOnAllMySites := false }

/-- A content-type entry of the externally fetched `postTypes` snapshot.
`labelsMenuName` is `get( postType.labels, 'menu_name' )`; `show_ui` is
optional because sites on older platform versions omit it; the capability
map is reduced to its `edit_posts` entry, the only key read. -/
structure PostType where
  name : String
  label : Option String
  labelsMenuName : Option String
  show_ui : Option Bool
  api_queryable : Bool
  capEditPosts : Option String
deriving DecidableEq

/-- The item literal `getCustomMenuItems` concatenates for one retained
content type: the label is `get( postType.labels, 'menu_name',
postType.label )` (label decoding is the out-of-scope formatting
collaborator, the identity at this boundary), the capability the
`edit_posts` entry of the capability map, the link `/types/` plus the
type name. -/
def mkCustomItem (pt : PostType) : MenuItemDefinition :=
  { name := pt.name,
    label := match pt.labelsMenuName with
             | some s => some s
             | none => pt.label,
    capability := pt.capEditPosts,
    itemConfig := some "manage/custom-post-types",
    queryable := pt.api_queryable,
    link := "/types/" ++ pt.name,
    wpAdminLink := "edit.php?post_type=" ++ pt.name,
    showOnAllMySites := false }

/-- The keys `omit` removes from `postTypes`: the reserved built-ins and
the internal block-storage type. -/
def reservedTypeKeys : List String := ["post", "page", "wp_block"]

/-- The method `getCustomMenuItems`: `omit` the reserved keys, then
`reduce` over the remaining entries, skipping an entry whose `show_ui` is
explicitly `false` and concatenating one item for every other entry.  The
snapshot is an ordered association list from type key to metadata. -/
def getCustomMenuItems (postTypes : List (String × PostType)) : List MenuItemDefinition :=
  (postTypes.filter (fun p => !reservedTypeKeys.contains p.1)).foldl
    (fun memo p =>
      if p.2.show_ui == some false then memo
      else memo ++ [mkCustomItem p.2])
    []

/-- The catalog `render` assembles: built-ins, then custom types, then the
plugins item when `calypsoify/plugins` is enabled, then the import item
when `manage/import-in-sidebar` is enabled. -/
def assembleCatalog (ctx : Context) (postTypes : List (String × PostType)) :
    List MenuItemDefinition :=
  let menuItems := getDefaultMenuItems ctx ++ getCustomMenuItems postTypes
  let menuItems :=
    if ctx.isEnabledFlag "calypsoify/plugins" then menuItems ++ [getPluginItem ctx]
    else menuItems
  if ctx.isEnabledFlag "manage/import-in-sidebar" then menuItems ++ [getImportItem ctx]
  else menuItems

/-- The rendered sequence for a catalog: `menuItems.map( this.renderMenuItem )`
with the `null` entries dropped, as the consuming list renders them. -/
def resolveAll (ctx : Context) (catalog : List MenuItemDefinition) :
    List ResolvedMenuItem :=
  (catalog.map (renderMenuItem ctx)).filterMap id

/-- The method `render`: resolve the assembled catalog. -/
def render (ctx : Context) (postTypes : List (String × PostType)) :
    List ResolvedMenuItem :=
  resolveAll ctx (assembleCatalog ctx postTypes)

/-!  The support-session header accessor of `server/support-session/index.js`.
A request is modelled by its header store, a map from header name to value;
`set` overwrites the named header and `get` reads it. -/

/-- A request, seen through its headers. -/
def Request : Type := String → Option String

/-- `getSupportSession`: read the `x-support-session` header. -/
def getSupportSession (r : Request) : Option String :=
  r "x-support-session"

/-- `setSupportSession`: write the `x-support-session` header. -/
def setSupportSession (r : Request) (supportSession : String) : Request :=
  fun name => if name = "x-support-session" then some supportSession else r name

/-- `isSupportSession`: `!! getSupportSession( request )` — JavaScript double
negation, on which an absent header and the empty string are both falsy. -/
def isSupportSession (r : Request) : Bool :=
  match getSupportSession r with
  | none => false
  | some s => !s.isEmpty

/-- The content-type entries the reduce of `getCustomMenuItems` retains: the
reserved keys omitted and the entries whose `show_ui` is explicitly `false`
skipped. -/
def retainedTypes (postTypes : List (String × PostType)) : List (String × PostType) :=
  (postTypes.filter (fun p => !reservedTypeKeys.contains p.1)).filter
    (fun p => !(p.2.show_ui == some false))

/-- A fixture: a selected multi-user, non-Jetpack site with every feature
flag enabled, every capability granted, no admin URL and the slug
`example.wordpress.com`. -/
def ctxMultiUserSite : Context :=
  { siteId := true, canCurrentUser := fun _ => true, isEnabledFlag := fun _ => true,
    siteAdminUrl := none, siteSlug := some "example.wordpress.com",
    isJetpack := false, isSingleUser := false, allSingleSites := false,
    isAtomicSite := false }

/-- A fixture: a selected site with every feature flag disabled. -/
def ctxAllFlagsOff : Context :=
  { siteId := true, canCurrentUser := fun _ => true, isEnabledFlag := fun _ => false,
    siteAdminUrl := none, siteSlug := none,
    isJetpack := false, isSingleUser := false, allSingleSites := false,
    isAtomicSite := false }

/-- A fixture: no single site selected, every flag enabled, every
capability granted. -/
def ctxNoSite : Context :=
  { siteId := false, canCurrentUser := fun _ => true, isEnabledFlag := fun _ => true,
    siteAdminUrl := none, siteSlug := none,
    isJetpack := false, isSingleUser := false, allSingleSites := false,
    isAtomicSite := false }

/-- A fixture: a content type whose capability map lacks `edit_posts`. -/
def ptPortfolio : PostType :=
  { name := "jetpack-portfolio", label := some "Portfolio", labelsMenuName := none,
    show_ui := some true, api_queryable := true, capEditPosts := none }

/-- A fixture: a content type carrying neither `labels.menu_name` nor
`label`. -/
def ptNoLabel : PostType :=
  { name := "product", label := none, labelsMenuName := none,
    show_ui := some true, api_queryable := true, capEditPosts := some "edit_posts" }

/-- A fixture: a content type stored under the key `media2` whose `name`
is the reserved built-in name `media`. -/
def ptMediaClash : PostType :=
  { name := "media", label := some "Media Library", labelsMenuName := none,
    show_ui := some true, api_queryable := true, capEditPosts := some "edit_posts" }

/-- A fixture: the pages built-in exactly as `getDefaultMenuItems` lists it. -/
def pagesItem : MenuItemDefinition :=
  { name := "page", label := some "Site Pages", capability := some "edit_pages",
    itemConfig := some "manage/pages", queryable := true, link := "/pages",
    wpAdminLink := "edit.php?post_type=page", showOnAllMySites := true }

/-- A fixture: the resolution of `pagesItem` under `ctxMultiUserSite`. -/
def resolvedPages : ResolvedMenuItem :=
  { name := "page", label := some "Site Pages", link := "/pages/example.wordpress.com",
    icon := "pages", preload := "posts-pages" }

/-! Helper lemmas. -/

lemma eq_empty_of_length_zero {a : String} (h : a.length = 0) : a = "" := by
  apply String.ext
  have hd : a.data.length = 0 := by rw [String.length_data]; exact h
  rw [List.length_eq_zero] at hd
  rw [hd]

lemma append_ne_empty_left {a : String} (b : String) (h : a ≠ "") : a ++ b ≠ "" := by
  intro hc
  have hl := congrArg String.length hc
  rw [String.length_append] at hl
  have h0 : ("" : String).length = 0 := rfl
  rw [h0] at hl
  exact h (eq_empty_of_length_zero (by omega))

lemma ne_empty_of_isEmpty_false {a : String} (ha : a.isEmpty = false) : a ≠ "" := by
  intro he; subst he; exact absurd ha (by decide)

lemma isEmpty_false_of_ne_empty {a : String} (ha : a ≠ "") : a.isEmpty = false := by
  cases h : a.isEmpty with
  | false => rfl
  | true => exact absurd ((String.isEmpty_iff a).mp h) ha

lemma compactJoin_ne_empty {a : String} (b : Option String) (ha : a.isEmpty = false) :
    compactJoin [some a, b] ≠ "" := by
  have ha' : a ≠ "" := ne_empty_of_isEmpty_false ha
  cases b with
  | none => simpa [compactJoin, joinSlash, ha] using ha'
  | some s =>
    by_cases hs : s.isEmpty = true
    · simpa [compactJoin, joinSlash, ha, hs] using ha'
    · rw [Bool.not_eq_true] at hs
      have h2 : compactJoin [some a, some s] = a ++ "/" ++ s := by
        simp [compactJoin, ha, hs, joinSlash]
      rw [h2]
      exact append_ne_empty_left s (append_ne_empty_left "/" ha')

lemma renderMenuItem_some_eq {ctx : Context} {item : MenuItemDefinition}
    {r : ResolvedMenuItem} (h : renderMenuItem ctx item = some r) :
    r = { name := item.name, label := item.label,
          link :=
            if externalLinkCond ctx item then
              ctx.siteAdminUrl.getD "" ++ item.wpAdminLink
            else
              compactJoin [some item.link, ctx.siteSlug],
          icon := iconFor item.name, preload := preloadFor item.name } := by
  unfold renderMenuItem at h
  split_ifs at h with h1 h2 h3 h4
  · rw [if_pos h4]; exact (Option.some.inj h).symm
  · rw [if_neg h4]; exact (Option.some.inj h).symm

lemma renderMenuItem_name {ctx : Context} {item : MenuItemDefinition}
    {r : ResolvedMenuItem} (h : renderMenuItem ctx item = some r) :
    r.name = item.name := by
  rw [renderMenuItem_some_eq h]

lemma getCustomMenuItems_foldl (l : List (String × PostType))
    (acc : List MenuItemDefinition) :
    l.foldl
      (fun memo p =>
        if p.2.show_ui == some false then memo
        else memo ++ [mkCustomItem p.2])
      acc
      = acc ++ (l.filter (fun p => !(p.2.show_ui == some false))).map
          (fun p => mkCustomItem p.2) := by
  induction l generalizing acc with
  | nil => simp
  | cons hd tl ih =>
    simp only [List.foldl_cons, List.filter_cons]
    cases hb : (hd.2.show_ui == some false) with
    | true =>
      simp only [hb, Bool.not_true, if_true, Bool.false_eq_true, if_false]
      exact ih acc
    | false =>
      simp only [hb, Bool.not_false, if_true, Bool.false_eq_true, if_false,
        List.map_cons]
      rw [ih (acc ++ [mkCustomItem hd.2]), List.append_assoc]
      rfl

lemma getCustomMenuItems_eq (postTypes : List (String × PostType)) :
    getCustomMenuItems postTypes = (retainedTypes postTypes).map (fun p => mkCustomItem p.2) := by
  unfold getCustomMenuItems retainedTypes
  rw [getCustomMenuItems_foldl]
  simp

lemma assembleCatalog_eq (ctx : Context) (postTypes : List (String × PostType)) :
    assembleCatalog ctx postTypes =
      getDefaultMenuItems ctx
        ++ (retainedTypes postTypes).map (fun p => mkCustomItem p.2)
        ++ (if ctx.isEnabledFlag "calypsoify/plugins" then [getPluginItem ctx] else [])
        ++ (if ctx.isEnabledFlag "manage/import-in-sidebar" then [getImportItem ctx] else []) := by
  unfold assembleCatalog
  rw [getCustomMenuItems_eq]
  by_cases h1 : ctx.isEnabledFlag "calypsoify/plugins" <;>
    by_cases h2 : ctx.isEnabledFlag "manage/import-in-sidebar" <;>
      simp [h1, h2, List.append_assoc]

lemma default_names (ctx : Context) :
    (getDefaultMenuItems ctx).map (fun i => i.name) = ["page", "post", "media", "comments"] := rfl

lemma mem_defaults_link_ne {ctx : Context} {item : MenuItemDefinition}
    (h : item ∈ getDefaultMenuItems ctx) : item.link ≠ "" := by
  simp only [getDefaultMenuItems, List.mem_cons, List.not_mem_nil, or_false] at h
  rcases h with rfl | rfl | rfl | rfl
  · decide
  · exact append_ne_empty_left (getMyParameter ctx) (by decide)
  · decide
  · decide

lemma mem_catalog_link_ne {ctx : Context} {pts : List (String × PostType)}
    {item : MenuItemDefinition} (hmem : item ∈ assembleCatalog ctx pts) :
    item.link ≠ "" := by
  rw [assembleCatalog_eq] at hmem
  simp only [List.mem_append] at hmem
  rcases hmem with ((hd | hc) | hp) | hi
  · exact mem_defaults_link_ne hd
  · rcases List.mem_map.mp hc with ⟨p, _, rfl⟩
    exact append_ne_empty_left p.2.name (by decide)
  · by_cases h1 : ctx.isEnabledFlag "calypsoify/plugins"
    · simp only [h1, if_true, List.mem_singleton] at hp
      subst hp
      exact (by decide : ("/plugins" : String) ≠ "")
    · simp [h1] at hp
  · by_cases h2 : ctx.isEnabledFlag "manage/import-in-sidebar"
    · simp only [h2, if_true, List.mem_singleton] at hi
      subst hi
      exact (by decide : ("/settings/import" : String) ≠ "")
    · simp [h2] at hi

/-! Claim theorems. -/

/-- C1: for every catalog item that passes visibility, exactly one link
target is chosen — the external admin link (admin base URL concatenated
with `wpAdminLink`) exactly when the item is feature-flag-disabled or not
queryable and an admin base URL is available, and the internal path joined
with the site slug (empty segments skipped) otherwise; and no visible item
has an empty link when a site is selected and an admin base URL is
available. -/
theorem c1_exactly_one_link (ctx : Context) (pts : List (String × PostType))
    (item : MenuItemDefinition) (r : ResolvedMenuItem)
    (hmem : item ∈ assembleCatalog ctx pts)
    (hres : renderMenuItem ctx item = some r) :
    (externalLinkCond ctx item = true →
        r.link = ctx.siteAdminUrl.getD "" ++ item.wpAdminLink) ∧
    (externalLinkCond ctx item = false →
        r.link = compactJoin [some item.link, ctx.siteSlug]) ∧
    (ctx.siteId = true → jsTruthy ctx.siteAdminUrl = true → r.link ≠ "") := by
  have hlink : r.link =
      if externalLinkCond ctx item then ctx.siteAdminUrl.getD "" ++ item.wpAdminLink
      else compactJoin [some item.link, ctx.siteSlug] := by
    rw [renderMenuItem_some_eq hres]
  refine ⟨fun hc => by rw [hlink, if_pos hc],
          fun hc => by rw [hlink, if_neg (by simp [hc])],
          fun hsite hadm => ?_⟩
  by_cases hc : externalLinkCond ctx item = true
  · rw [hlink, if_pos hc]
    cases hu : ctx.siteAdminUrl with
    | none => rw [hu] at hadm; exact absurd hadm (by decide)
    | some s =>
      have hse : s.isEmpty = false := by
        rw [hu] at hadm; simpa [jsTruthy] using hadm
      rw [Option.getD_some]
      exact append_ne_empty_left item.wpAdminLink (ne_empty_of_isEmpty_false hse)
  · rw [hlink, if_neg hc]
    exact compactJoin_ne_empty ctx.siteSlug
      (isEmpty_false_of_ne_empty (mem_catalog_link_ne hmem))

/-- C1 witness: the pages built-in resolved under `ctxMultiUserSite` with
an empty content-type snapshot. -/
theorem c1_exactly_one_link_witness :
    (externalLinkCond ctxMultiUserSite pagesItem = true →
        resolvedPages.link = ctxMultiUserSite.siteAdminUrl.getD "" ++ pagesItem.wpAdminLink) ∧
    (externalLinkCond ctxMultiUserSite pagesItem = false →
        resolvedPages.link = compactJoin [some pagesItem.link, ctxMultiUserSite.siteSlug]) ∧
    (ctxMultiUserSite.siteId = true → jsTruthy ctxMultiUserSite.siteAdminUrl = true →
        resolvedPages.link ≠ "") :=
  c1_exactly_one_link ctxMultiUserSite [] pagesItem resolvedPages (by decide) rfl

/-- C2 counterexample: under `ctxMultiUserSite` a single site is selected
(`siteId` is true), the site is neither single-user nor Jetpack, and the
posts built-in link does carry the `/my` suffix — refuting the claim that
a selected site never yields the suffix. -/
theorem c2_counterexample :
    ctxMultiUserSite.siteId = true ∧
    getMyParameter ctxMultiUserSite = "/my" ∧
    ((getDefaultMenuItems ctxMultiUserSite).map (fun i => i.link))[1]? = some "/posts/my" :=
  ⟨rfl, rfl, rfl⟩

/-- C2 amended: with a single site selected, the posts link carries no
`/my` suffix exactly when the site is single-user or Jetpack-connected,
and carries the suffix when it is neither. -/
theorem c2_my_suffix (ctx : Context) (h : ctx.siteId = true) :
    ((getDefaultMenuItems ctx).map (fun i => i.link))[1]? =
      some (if ctx.isSingleUser || ctx.isJetpack then "/posts" else "/posts/my") := by
  have hl : (getDefaultMenuItems ctx).map (fun i => i.link)
      = ["/pages", "/posts" ++ getMyParameter ctx, "/media", "/comments"] := rfl
  have hm : getMyParameter ctx = if ctx.isSingleUser || ctx.isJetpack then "" else "/my" := by
    simp [getMyParameter, h]
  rw [hl, hm]
  by_cases h1 : (ctx.isSingleUser || ctx.isJetpack) = true
  · rw [if_pos h1, if_pos h1]
    rfl
  · rw [if_neg h1, if_neg h1]
    rfl

/-- C2 witness: the amended suffix rule applied to `ctxMultiUserSite`. -/
theorem c2_my_suffix_witness :
    ((getDefaultMenuItems ctxMultiUserSite).map (fun i => i.link))[1]? =
      some (if ctxMultiUserSite.isSingleUser || ctxMultiUserSite.isJetpack
            then "/posts" else "/posts/my") :=
  c2_my_suffix ctxMultiUserSite rfl

/-- C3: with the catalog cut to the pages and posts built-ins, a selected
multi-user non-Jetpack site, every capability granted and every flag
enabled, the resolved pages link is `/pages/example.wordpress.com` and the
resolved posts link is `/posts/my/example.wordpress.com`. -/
theorem c3_multiuser_posts_link :
    (resolveAll ctxMultiUserSite ((getDefaultMenuItems ctxMultiUserSite).take 2)).map
        (fun r => r.link) =
      ["/pages/example.wordpress.com", "/posts/my/example.wordpress.com"] := rfl

/-- C4 counterexample: a custom item whose capability map entry is absent
is omitted when a site is selected even though it is otherwise eligible
(the same item with a granted capability is rendered) — refuting the claim
that an absent capability never causes omission. -/
theorem c4_counterexample :
    (mkCustomItem ptPortfolio).capability = none ∧
    renderMenuItem ctxMultiUserSite (mkCustomItem ptPortfolio) = none ∧
    renderMenuItem ctxMultiUserSite
        { mkCustomItem ptPortfolio with capability := some "edit_posts" } ≠ none := by
  refine ⟨rfl, rfl, ?_⟩
  decide

/-- C4 amended: with a site selected, an item with a set capability whose
check fails is omitted, and an item with an absent capability is omitted
as well (the check fails closed). -/
theorem c4_capability_gate (ctx : Context) (item : MenuItemDefinition)
    (hsite : ctx.siteId = true) :
    (∀ c, item.capability = some c → ctx.canCurrentUser c = false →
        renderMenuItem ctx item = none) ∧
    (item.capability = none → renderMenuItem ctx item = none) := by
  constructor
  · intro c hc hfalse
    have hcond : (ctx.siteId && !capCheck ctx item.capability) = true := by
      rw [hsite, hc]; simp [capCheck, hfalse]
    simp [renderMenuItem, hcond]
  · intro hc
    have hcond : (ctx.siteId && !capCheck ctx item.capability) = true := by
      rw [hsite, hc]; simp [capCheck]
    simp [renderMenuItem, hcond]

/-- C4 witness: the capability gate applied to the portfolio custom item
under `ctxMultiUserSite`. -/
theorem c4_capability_gate_witness :
    (mkCustomItem ptPortfolio).capability = none ∧
    renderMenuItem ctxMultiUserSite (mkCustomItem ptPortfolio) = none :=
  ⟨rfl, (c4_capability_gate ctxMultiUserSite (mkCustomItem ptPortfolio) rfl).2 rfl⟩

/-- C5: an item with `showOnAllMySites` false resolved with no single site
selected is omitted, whatever the capability and feature-flag state. -/
theorem c5_hidden_without_site (ctx : Context) (item : MenuItemDefinition)
    (h1 : item.showOnAllMySites = false) (h2 : ctx.siteId = false) :
    renderMenuItem ctx item = none := by
  simp [renderMenuItem, h1, h2]

/-- C5 witness: the media built-in under `ctxNoSite`. -/
theorem c5_hidden_without_site_witness :
    renderMenuItem ctxNoSite
      { name := "media", label := some "Media", capability := some "upload_files",
        itemConfig := none, queryable := true, link := "/media",
        wpAdminLink := "upload.php", showOnAllMySites := false } = none :=
  c5_hidden_without_site ctxNoSite _ rfl rfl

/-- C6: the assembled catalog is the built-ins, then exactly one item per
retained content-type entry (the keys `post`, `page`, `wp_block` omitted
and the entries whose `show_ui` is explicitly false skipped) in supplied
order, then the plugins item exactly when its flag is enabled, then
lastly the import item exactly when its flag is enabled. -/
theorem c6_catalog_assembly (ctx : Context) (postTypes : List (String × PostType)) :
    assembleCatalog ctx postTypes =
      getDefaultMenuItems ctx
        ++ (retainedTypes postTypes).map (fun p => mkCustomItem p.2)
        ++ (if ctx.isEnabledFlag "calypsoify/plugins" then [getPluginItem ctx] else [])
        ++ (if ctx.isEnabledFlag "manage/import-in-sidebar" then [getImportItem ctx] else []) :=
  assembleCatalog_eq ctx postTypes

/-- C9 counterexample: a content-type entry with no label at all derives a
menu item whose label is absent, not the entry raw name `product` —
refuting the claim that a missing label falls back to the raw name. -/
theorem c9_counterexample :
    ptNoLabel.labelsMenuName = none ∧ ptNoLabel.label = none ∧
    ptNoLabel.name = "product" ∧ (mkCustomItem ptNoLabel).label ≠ some "product" := by
  refine ⟨rfl, rfl, rfl, ?_⟩
  decide

/-- C9 amended: an entry missing `labels.menu_name` falls back to its
`label` field (absent when that too is missing), and the derivation is
total — it never fails the pass. -/
theorem c9_label_fallback (pt : PostType) (h : pt.labelsMenuName = none) :
    (mkCustomItem pt).label = pt.label := by
  simp [mkCustomItem, h]

/-- C9 witness: the fallback applied to the portfolio fixture. -/
theorem c9_label_fallback_witness :
    (mkCustomItem ptPortfolio).label = ptPortfolio.label :=
  c9_label_fallback ptPortfolio rfl

/-- C10: setting then getting the support-session header round-trips for
every request and token, and `isSupportSession` holds after setting any
non-empty token. -/
theorem c10_support_session_roundtrip (r : Request) (token : String) :
    getSupportSession (setSupportSession r token) = some token ∧
    (token ≠ "" → isSupportSession (setSupportSession r token) = true) := by
  constructor
  · simp [getSupportSession, setSupportSession]
  · intro h
    simp only [isSupportSession, getSupportSession, setSupportSession, if_pos rfl]
    simpa using isEmpty_false_of_ne_empty h

/-- C10 witness: the round trip on an empty header store and the token
`abc123`. -/
theorem c10_support_session_roundtrip_witness :
    getSupportSession (setSupportSession (fun _ => none) "abc123") = some "abc123" ∧
    isSupportSession (setSupportSession (fun _ => none) "abc123") = true :=
  ⟨(c10_support_session_roundtrip (fun _ => none) "abc123").1,
   (c10_support_session_roundtrip (fun _ => none) "abc123").2 (by decide)⟩

lemma resolveAll_eq_filterMap (ctx : Context) (catalog : List MenuItemDefinition) :
    resolveAll ctx catalog = catalog.filterMap (renderMenuItem ctx) := by
  unfold resolveAll
  rw [List.filterMap_map]
  rfl

lemma names_sublist (ctx : Context) (catalog : List MenuItemDefinition) :
    List.Sublist ((catalog.filterMap (renderMenuItem ctx)).map (fun r => r.name))
      (catalog.map (fun i => i.name)) := by
  induction catalog with
  | nil => simp
  | cons hd tl ih =>
    rw [List.map_cons]
    cases h : renderMenuItem ctx hd with
    | none =>
      rw [List.filterMap_cons_none h]
      exact ih.cons hd.name
    | some r =>
      rw [List.filterMap_cons_some h, List.map_cons, renderMenuItem_name h]
      exact ih.cons₂ hd.name

/-- C7: the rendered output is the catalog with the omitted items removed,
in catalog order — each catalog entry contributes its resolution when
visible, and the output name sequence embeds order-preservingly into the
catalog name sequence. -/
theorem c7_stable_order (ctx : Context) (catalog : List MenuItemDefinition) :
    resolveAll ctx catalog = catalog.filterMap (renderMenuItem ctx) ∧
    List.Sublist ((resolveAll ctx catalog).map (fun r => r.name))
      (catalog.map (fun i => i.name)) := by
  refine ⟨resolveAll_eq_filterMap ctx catalog, ?_⟩
  rw [resolveAll_eq_filterMap ctx catalog]
  exact names_sublist ctx catalog


lemma nodup_merged (cn : List String) (hnd : cn.Nodup)
    (hni : ∀ a ∈ cn,
      a ∉ (["page", "post", "media", "comments", "plugins", "import"] : List String))
    (p i : Bool) :
    ((["page", "post", "media", "comments"] : List String) ++ (cn
      ++ ((if p then ["plugins"] else []) ++ (if i then ["import"] else [])))).Nodup := by
  have hsplit : ∀ a ∈ cn, a ≠ "page" ∧ a ≠ "post" ∧ a ≠ "media" ∧ a ≠ "comments"
      ∧ a ≠ "plugins" ∧ a ≠ "import" := by
    intro a ha
    have h := hni a ha
    simp only [List.mem_cons, List.not_mem_nil, or_false, not_or] at h
    exact h
  have hTsub : ∀ a, a ∈ ((if p then ["plugins"] else [])
      ++ (if i then ["import"] else []) : List String) →
      a = "plugins" ∨ a = "import" := by
    intro a ha
    cases p <;> cases i <;> simp_all
  have hTnd : ((if p then ["plugins"] else [])
      ++ (if i then ["import"] else []) : List String).Nodup := by
    cases p <;> cases i <;> decide
  refine List.Nodup.append (by decide) (List.Nodup.append hnd hTnd ?_) ?_
  · intro a ha haT
    rcases hTsub a haT with rfl | rfl
    · exact (hsplit _ ha).2.2.2.2.1 rfl
    · exact (hsplit _ ha).2.2.2.2.2 rfl
  · intro a haA haM
    have h4 : a = "page" ∨ a = "post" ∨ a = "media" ∨ a = "comments" := by
      simpa using haA
    rcases List.mem_append.mp haM with hcn | hT
    · rcases h4 with rfl | rfl | rfl | rfl
      · exact (hsplit _ hcn).1 rfl
      · exact (hsplit _ hcn).2.1 rfl
      · exact (hsplit _ hcn).2.2.1 rfl
      · exact (hsplit _ hcn).2.2.2.1 rfl
    · rcases hTsub a hT with rfl | rfl <;> rcases h4 with h | h | h | h <;> simp at h

/-- C8 amended: the assembled catalog names are unique whenever the
retained content types carry pairwise-distinct names that avoid the
built-in and optional item names — the code excludes only the keys `post`,
`page`, `wp_block` and does not itself prevent a collision. -/
theorem c8_names_unique (ctx : Context) (pts : List (String × PostType))
    (hnd : ((retainedTypes pts).map (fun p => p.2.name)).Nodup)
    (hdisj : ∀ p ∈ retainedTypes pts,
      p.2.name ∉ (["page", "post", "media", "comments", "plugins", "import"] : List String)) :
    ((assembleCatalog ctx pts).map (fun i => i.name)).Nodup := by
  rw [assembleCatalog_eq]
  have hmapP : ((if ctx.isEnabledFlag "calypsoify/plugins"
      then [getPluginItem ctx] else []).map (fun i => i.name))
      = (if ctx.isEnabledFlag "calypsoify/plugins" then ["plugins"] else []) := by
    by_cases h : ctx.isEnabledFlag "calypsoify/plugins" <;> simp [h, getPluginItem]
  have hmapI : ((if ctx.isEnabledFlag "manage/import-in-sidebar"
      then [getImportItem ctx] else []).map (fun i => i.name))
      = (if ctx.isEnabledFlag "manage/import-in-sidebar" then ["import"] else []) := by
    by_cases h : ctx.isEnabledFlag "manage/import-in-sidebar" <;> simp [h, getImportItem]
  have hmapC : (((retainedTypes pts).map (fun p => mkCustomItem p.2)).map (fun i => i.name))
      = (retainedTypes pts).map (fun p => p.2.name) := by
    rw [List.map_map]; rfl
  simp only [List.map_append]
  rw [hmapP, hmapI, hmapC, default_names]
  have hni : ∀ a ∈ (retainedTypes pts).map (fun p => p.2.name),
      a ∉ (["page", "post", "media", "comments", "plugins", "import"] : List String) := by
    intro a ha
    rcases List.mem_map.mp ha with ⟨q, hq, rfl⟩
    exact hdisj q hq
  have hall := nodup_merged ((retainedTypes pts).map (fun p => p.2.name)) hnd hni
    (ctx.isEnabledFlag "calypsoify/plugins") (ctx.isEnabledFlag "manage/import-in-sidebar")
  simpa [List.append_assoc] using hall

/-- C8 counterexample: a content-type snapshot keyed `media2` whose entry
is named `media` yields an assembled catalog in which `media` occurs twice
— refuting the claim that catalog names are always unique. -/
theorem c8_counterexample :
    ¬ ((assembleCatalog ctxAllFlagsOff [("media2", ptMediaClash)]).map
        (fun i => i.name)).Nodup := by decide

/-- C8 witness: a snapshot with the single custom type `product` under
`ctxMultiUserSite`, both optional items appended. -/
theorem c8_names_unique_witness :
    ((assembleCatalog ctxMultiUserSite [("product", ptNoLabel)]).map
        (fun i => i.name)).Nodup :=
  c8_names_unique ctxMultiUserSite [("product", ptNoLabel)] (by decide) (by decide)
